import Mathlib

/-!
Shallow embedding of the TeachableMachinePro core
(client/src/hooks/use-tensorflow.ts, client/src/lib/ml-utils.ts,
client/src/pages/home.tsx, client/src/types/ml-types.ts).

Numeric values carried by the code as JS floats (losses, accuracies,
probabilities) are modelled as exact rationals, except for the softmax
property where the real exponential is required.  Asynchronous effects
are modelled synchronously: `startTraining` takes the outcome of the
backend `model.fit` call (the per-epoch callback log, or the point of
failure) as an explicit argument and returns the final React state
together with the list of emitted progress records.
-/

namespace TM

/-- Mirrors `ImageSample` from client/src/types/ml-types.ts (the decoded
pixel data and blob are irrelevant to the claims; identity and url are
kept). -/
structure ImageSample where
  id : String
  url : String
deriving DecidableEq

/-- Mirrors `TrainingClass` from client/src/types/ml-types.ts. -/
structure TrainingClassData where
  id : String
  name : String
  color : String
  samples : List ImageSample
deriving DecidableEq

/-- Mirrors `TrainingStatus` from client/src/types/ml-types.ts:
`'idle' | 'training' | 'completed' | 'error'`. -/
inductive TrainingStatus where
  | idle
  | training
  | completed
  | error
deriving DecidableEq

/-- Mirrors `TrainingProgress` from client/src/types/ml-types.ts. -/
structure TrainingProgress where
  epoch : Nat
  totalEpochs : Nat
  accuracy : ℚ
  loss : ℚ
  samplesProcessed : Nat
  timeElapsed : Nat
deriving DecidableEq

/-- One element of the `trainingHistory` array of the hook
(use-tensorflow.ts line 11): `{ epoch, loss, accuracy }`. -/
structure HistoryRecord where
  epoch : Nat
  loss : ℚ
  accuracy : ℚ
deriving DecidableEq

/-- Mirrors `MLModel` from client/src/types/ml-types.ts.  The TF.js
`LayersModel` handle is abstracted to the number of output units of the
transfer head it was built with (`some n` after `createTransferModel`
with `n` classes, `none` before); `baseModel` records whether the
MobileNet base has been loaded. -/
structure MLModel where
  model : Option Nat
  isReady : Bool
  baseModel : Bool
deriving DecidableEq

/-- The React state held by the `useTensorFlow` hook
(use-tensorflow.ts lines 7-12), excluding `isInitialized`. -/
structure TFState where
  model : MLModel
  trainingStatus : TrainingStatus
  trainingProgress : Option TrainingProgress
  trainingHistory : List HistoryRecord
  error : Option String
deriving DecidableEq

/-- What the backend hands to the `onEpochEnd` callback for one epoch
(ml-utils.ts lines 144-149: `logs.loss`, `logs.acc`), together with the
value of the monotonic clock `Date.now() - startTime` sampled inside
the callback (use-tensorflow.ts line 133). -/
structure EpochLog where
  loss : ℚ
  acc : ℚ
  elapsedMs : Nat
deriving DecidableEq

/-- Outcome of the asynchronous part of a training run, an input of the
embedding.  `success logs` : `trainModel` resolved after invoking the
epoch callback once per element of `logs`; `failure logs` : the promise
rejected after `logs.length` completed epochs; `prepFailure` : an
exception was raised during data preparation, before both training
tensors existed. -/
inductive RunOutcome where
  | success (logs : List EpochLog)
  | failure (logs : List EpochLog)
  | prepFailure
deriving DecidableEq

/-- Whether the outcome is a successful completion of all epochs. -/
def RunOutcome.isSuccess : RunOutcome → Bool
  | .success _ => true
  | _ => false

/-- Error string of the first guard of `startTraining`
(use-tensorflow.ts line 81). -/
def insufficientMsg : String := "Model not ready or insufficient classes"

/-- The list `classes.filter(cls => cls.samples.length === 0)`
(use-tensorflow.ts line 86). -/
def invalidClasses (classes : List TrainingClassData) : List TrainingClassData :=
  classes.filter (fun c => c.samples.length == 0)

/-- Error string of the empty-class guard (use-tensorflow.ts line 88). -/
def emptyClassMsg (classes : List TrainingClassData) : String :=
  "Classes \"" ++ String.intercalate "\", \"" ((invalidClasses classes).map (fun c => c.name))
    ++ "\" have no training samples"

/-- Error string of the catch block (use-tensorflow.ts line 162). -/
def trainingFailedMsg : String := "Training failed. Please check your data and try again."

/-- Error string of the `createModel` guard (use-tensorflow.ts line 60). -/
def createModelGuardMsg : String := "Need at least 2 classes and a loaded base model"

/-- Total number of training images gathered by the preparation loop
(use-tensorflow.ts lines 98-112): one per sample of every class, so
`allImages.length` is the sum of the per-class sample counts. -/
def totalSamples (classes : List TrainingClassData) : Nat :=
  (classes.map (fun c => c.samples.length)).sum

/-- The progress value passed to `setTrainingProgress` for the 0-based
epoch `i` (use-tensorflow.ts lines 134-141); `accuracy` is
`(accuracy || 0) * 100` and `timeElapsed` is `Math.floor(ms / 1000)`. -/
def progressRecord (epochs n i : Nat) (log : EpochLog) : TrainingProgress :=
  { epoch := i + 1
    totalEpochs := epochs
    accuracy := log.acc * 100
    loss := log.loss
    samplesProcessed := n
    timeElapsed := log.elapsedMs / 1000 }

/-- The record appended to `trainingHistory` for the 0-based epoch `i`
(use-tensorflow.ts lines 146-150). -/
def historyRecord (i : Nat) (log : EpochLog) : HistoryRecord :=
  { epoch := i + 1
    loss := log.loss
    accuracy := log.acc * 100 }

/-- One execution of the `onEpochEnd` callback body: it overwrites the
current progress and appends one record to the history
(use-tensorflow.ts lines 132-151). -/
def callbackStep (epochs n : Nat) (st : Option TrainingProgress × List HistoryRecord)
    (p : Nat × EpochLog) : Option TrainingProgress × List HistoryRecord :=
  (some (progressRecord epochs n p.1 p.2), st.2 ++ [historyRecord p.1 p.2])

/-- The sequence of callback executions driven by `model.fit`: one call
per epoch log, in epoch order. -/
def runCallbacks (epochs n : Nat) (logs : List EpochLog)
    (st : Option TrainingProgress × List HistoryRecord) :
    Option TrainingProgress × List HistoryRecord :=
  logs.enum.foldl (callbackStep epochs n) st

/-- The stream of values passed to `setTrainingProgress` during a run,
in order. -/
def emittedProgress (epochs n : Nat) (logs : List EpochLog) : List TrainingProgress :=
  logs.enum.map (fun p => progressRecord epochs n p.1 p.2)

/-- Result of one `startTraining` invocation: the final hook state, the
progress stream it emitted, and the fate of the two training tensors
`xs` and `ys` (whether they were allocated and whether `dispose` was
called on them before the invocation returned). -/
structure StartTrainingResult where
  state : TFState
  emitted : List TrainingProgress
  tensorsAllocated : Bool
  xsDisposed : Bool
  ysDisposed : Bool
deriving DecidableEq

/-- Shallow embedding of `startTraining` (use-tensorflow.ts lines
79-165).  Guard 1 (line 80): no transfer model or fewer than 2 classes.
Guard 2 (lines 86-90): some class has no samples.  Otherwise the status
becomes `'training'`, the error is cleared, the history is reset, the
tensors `xs` and `ys` are created, and `trainModel` runs the epoch
callback; on resolution the tensors are disposed (lines 155-156),
`isReady` is set and the status becomes `'completed'`; on rejection the
catch block (lines 160-164) sets the error message and the `'error'`
status without disposing `xs`/`ys`.  There is no check of
`trainingStatus` anywhere in the function. -/
def startTraining (s : TFState) (classes : List TrainingClassData) (epochs : Nat)
    (outcome : RunOutcome) : StartTrainingResult :=
  if s.model.model = none ∨ classes.length < 2 then
    { state := { s with error := some insufficientMsg }
      emitted := []
      tensorsAllocated := false
      xsDisposed := false
      ysDisposed := false }
  else if (invalidClasses classes).length > 0 then
    { state := { s with error := some (emptyClassMsg classes) }
      emitted := []
      tensorsAllocated := false
      xsDisposed := false
      ysDisposed := false }
  else
    let n := totalSamples classes
    match outcome with
    | .success logs =>
      let fin := runCallbacks epochs n logs (s.trainingProgress, [])
      { state := { s with
          trainingStatus := TrainingStatus.completed
          error := none
          trainingProgress := fin.1
          trainingHistory := fin.2
          model := { s.model with isReady := true } }
        emitted := emittedProgress epochs n logs
        tensorsAllocated := true
        xsDisposed := true
        ysDisposed := true }
    | .failure logs =>
      let fin := runCallbacks epochs n logs (s.trainingProgress, [])
      { state := { s with
          trainingStatus := TrainingStatus.error
          error := some trainingFailedMsg
          trainingProgress := fin.1
          trainingHistory := fin.2 }
        emitted := emittedProgress epochs n logs
        tensorsAllocated := true
        xsDisposed := false
        ysDisposed := false }
    | .prepFailure =>
      { state := { s with
          trainingStatus := TrainingStatus.error
          error := some trainingFailedMsg
          trainingHistory := [] }
        emitted := []
        tensorsAllocated := false
        xsDisposed := false
        ysDisposed := false }

/-- Shallow embedding of `createModel` (use-tensorflow.ts lines 58-76):
with a base model and at least 2 classes it replaces the transfer head
by a fresh one sized to the class count and forces `isReady := false`;
otherwise it only sets the error message. -/
def createModel (s : TFState) (classes : List TrainingClassData) : TFState :=
  if s.model.baseModel = false ∨ classes.length < 2 then
    { s with error := some createModelGuardMsg }
  else
    { s with
      model := { s.model with model := some classes.length, isReady := false }
      error := none }

/-- The page-level state of home.tsx that the claims touch: the class
list plus the hook state. -/
structure Session where
  classes : List TrainingClassData
  tf : TFState
deriving DecidableEq

/-- The externally triggered state changes of the page.  `setClasses`
is any update of the class list through `onClassesChange` (add/remove
class, rename, add/remove sample — ClassManager always passes a fresh
array); `train` is a `startTraining` call; `loadBase` is the completion
of `loadBaseModel`. -/
inductive Event where
  | setClasses (classes : List TrainingClassData)
  | train (epochs : Nat) (outcome : RunOutcome)
  | loadBase
deriving DecidableEq

/-- Whether an event is a training run whose backend outcome is a
successful completion. -/
def Event.isSuccessTrain : Event → Bool
  | .train _ o => o.isSuccess
  | _ => false

/-- The `useEffect` of home.tsx lines 76-80: whenever the class list or
the base model changes, if the base model is loaded and there are at
least 2 classes, `createModel(classes)` runs. -/
def classEffect (s : Session) : Session :=
  if s.tf.model.baseModel = true ∧ 2 ≤ s.classes.length then
    { s with tf := createModel s.tf s.classes }
  else s

/-- One step of the page state machine. -/
def sessionStep (s : Session) (e : Event) : Session :=
  match e with
  | .setClasses cs => classEffect { s with classes := cs }
  | .train epochs outcome =>
    { s with tf := (startTraining s.tf s.classes epochs outcome).state }
  | .loadBase =>
    classEffect { s with tf := { s.tf with model := { s.tf.model with baseModel := true } } }

/-- Run a list of events from a session state. -/
def runEvents (s : Session) (evs : List Event) : Session :=
  evs.foldl sessionStep s

/-- Mirrors `Prediction` from client/src/types/ml-types.ts.  The
confidence is a JS number; the claims are settled over an arbitrary
linearly ordered field instantiated at ℚ (exact evaluation) or ℝ (for
the softmax property). -/
structure Prediction (α : Type) where
  className : String
  confidence : α
  classIndex : Nat
deriving DecidableEq

/-- The label `classes[index]?.name || 'Class ' + (index + 1)` from
use-tensorflow.ts line 179.  JS `||` also takes the fallback when the
name is the empty string (falsy). -/
def classNameAt (classes : List TrainingClassData) (i : Nat) : String :=
  match classes.get? i with
  | some c => if c.name = "" then "Class " ++ toString (i + 1) else c.name
  | none => "Class " ++ toString (i + 1)

/-- The list built by `Array.from(predictionData).map((confidence,
index) => ...)` (use-tensorflow.ts lines 178-182), with `i` the index
of the first element; confidences are scaled by 100. -/
def rawPredictionsFrom {α : Type} [LinearOrderedField α]
    (classes : List TrainingClassData) (i : Nat) : List α → List (Prediction α)
  | [] => []
  | c :: rest =>
    { className := classNameAt classes i
      confidence := c * 100
      classIndex := i } :: rawPredictionsFrom classes (i + 1) rest

/-- The unsorted prediction list for the full model output. -/
def rawPredictions {α : Type} [LinearOrderedField α]
    (classes : List TrainingClassData) (probs : List α) : List (Prediction α) :=
  rawPredictionsFrom classes 0 probs

/-- Insertion into a descending-by-confidence list, placing the new
element before the first element whose confidence is not larger: this
is exactly where a stable sort with the comparator
`(a, b) => b.confidence - a.confidence` puts an element that precedes
the rest in the input. -/
def insertByConf {α : Type} [LinearOrderedField α] (p : Prediction α) :
    List (Prediction α) → List (Prediction α)
  | [] => [p]
  | q :: qs =>
    if p.confidence < q.confidence then q :: insertByConf p qs else p :: q :: qs

/-- The sort `predictions.sort((a, b) => b.confidence - a.confidence)`
(use-tensorflow.ts line 185).  `Array.prototype.sort` is stable
(ECMAScript 2019), so with this comparator the result is the unique
stable non-increasing reordering, which this insertion sort computes. -/
def sortByConfDesc {α : Type} [LinearOrderedField α] :
    List (Prediction α) → List (Prediction α)
  | [] => []
  | p :: ps => insertByConf p (sortByConfDesc ps)

/-- Shallow embedding of `makePrediction` (use-tensorflow.ts lines
168-192): requires a built and ready model, maps the model's output
probabilities (`predictionData`) to labeled percentage predictions and
sorts them by descending confidence. -/
def makePrediction {α : Type} [LinearOrderedField α] (model : MLModel)
    (classes : List TrainingClassData) (predictionData : List α) :
    Except String (List (Prediction α)) :=
  if model.model = none ∨ model.isReady = false then
    Except.error "Model not ready for predictions"
  else
    Except.ok (sortByConfDesc (rawPredictions classes predictionData))

/-- The softmax activation of the `predictions` dense layer declared in
`createTransferModel` (ml-utils.ts lines 111-115).  The computation
itself lives in the TF.js runtime, not in this repository; this is its
standard real-number definition. -/
noncomputable def softmax (z : List ℝ) : List ℝ :=
  z.map (fun zi => Real.exp zi / (z.map Real.exp).sum)

/-- A decoded pixel buffer as `tf.browser.fromPixels` exposes it: a
height × width grid of 3 integer channel values in [0, 255], modelled
as a total rational-valued function (indices outside the buffer are
irrelevant to the claims, which bound every value of the function). -/
structure PixelBuffer where
  width : Nat
  height : Nat
  pixel : Nat → Nat → Nat → ℚ

/-- Linear interpolation `a + (b - a) * t`, the combination step used
by the TF.js bilinear-resize kernel. -/
def lerp (a b t : ℚ) : ℚ := a + (b - a) * t

/-- One output value of `tf.image.resizeBilinear(tensor, [outH, outW])`
with the default `alignCorners = false`: the source coordinate of
output row `y` is `y * (inHeight / outH)`; the four neighbours at the
floor/ceil coordinates (ceil clamped to the last row/column) are
combined by two horizontal lerps and one vertical lerp with the
fractional parts as weights. -/
def resizeBilinearAt (img : PixelBuffer) (outH outW : Nat) (y x c : Nat) : ℚ :=
  let srcY : ℚ := y * ((img.height : ℚ) / (outH : ℚ))
  let srcX : ℚ := x * ((img.width : ℚ) / (outW : ℚ))
  let yFloor : Nat := (Int.floor srcY).toNat
  let yCeil : Nat := min (img.height - 1) (Int.ceil srcY).toNat
  let yFrac : ℚ := srcY - (yFloor : ℚ)
  let xFloor : Nat := (Int.floor srcX).toNat
  let xCeil : Nat := min (img.width - 1) (Int.ceil srcX).toNat
  let xFrac : ℚ := srcX - (xFloor : ℚ)
  let top := lerp (img.pixel yFloor xFloor c) (img.pixel yFloor xCeil c) xFrac
  let bottom := lerp (img.pixel yCeil xFloor c) (img.pixel yCeil xCeil c) xFrac
  lerp top bottom yFrac

/-- A rank-4 tensor as produced by `expandDims(0)`: shape
[batch, height, width, channels] plus a value function. -/
structure Tensor4 where
  batch : Nat
  height : Nat
  width : Nat
  channels : Nat
  val : Nat → Nat → Nat → Nat → ℚ

/-- Shallow embedding of `preprocessImage` (ml-utils.ts lines 51-70):
`fromPixels` (3 channels, values 0..255) → `resizeBilinear` to 224×224
→ cast to float32 (identity in the exact model) → divide by 255 →
`expandDims(0)`.  A pure function of the pixel buffer. -/
def preprocessImage (img : PixelBuffer) : Tensor4 :=
  { batch := 1
    height := 224
    width := 224
    channels := 3
    val := fun _ y x c => resizeBilinearAt img 224 224 y x c / 255 }

/-- The epoch logs carried by an outcome (empty for a preparation
failure, which happens before any epoch). -/
def RunOutcome.logs : RunOutcome → List EpochLog
  | .success l => l
  | .failure l => l
  | .prepFailure => []

/-- Default value used with `List.getD` when indexing progress lists. -/
def noProgress : TrainingProgress :=
  { epoch := 0, totalEpochs := 0, accuracy := 0, loss := 0, samplesProcessed := 0, timeElapsed := 0 }

/-- Default value used with `List.getD` when indexing epoch logs. -/
def noLog : EpochLog := { loss := 0, acc := 0, elapsedMs := 0 }

/-- The value of the `trainingHistory` state after the first `k` epoch
callbacks of the run whose logs are `logs` (the history is reset to
`[]` at run start, use-tensorflow.ts line 95). -/
def historyAfter (epochs n : Nat) (logs : List EpochLog) (k : Nat) : List HistoryRecord :=
  (runCallbacks epochs n (logs.take k) (none, [])).2

/-! Concrete instances used by the witnesses and counterexamples. -/

/-- A concrete sample. -/
def sampleA : ImageSample := { id := "s1", url := "u1" }

/-- A second concrete sample. -/
def sampleB : ImageSample := { id := "s2", url := "u2" }

/-- A third concrete sample. -/
def sampleC : ImageSample := { id := "s3", url := "u3" }

/-- A concrete class with one sample. -/
def clsA : TrainingClassData :=
  { id := "class-1", name := "Class A", color := "bg-green-500", samples := [sampleA] }

/-- A second concrete class with one sample. -/
def clsB : TrainingClassData :=
  { id := "class-2", name := "Class B", color := "bg-orange-500", samples := [sampleB] }

/-- A third concrete class with one sample. -/
def clsC : TrainingClassData :=
  { id := "class-3", name := "Class C", color := "bg-purple-500", samples := [sampleC] }

/-- A concrete class with no samples. -/
def clsEmpty : TrainingClassData :=
  { id := "class-4", name := "Class D", color := "bg-blue-500", samples := [] }

/-- The class `clsA` after a rename, all samples kept. -/
def clsARenamed : TrainingClassData := { clsA with name := "Cats" }

/-- A concrete epoch log. -/
def oneLog : EpochLog := { loss := 1/2, acc := 3/4, elapsedMs := 1500 }

/-- A hook state captured in the middle of a run: status `'training'`,
a head built for 2 classes, one history record (of epoch 7) already
appended. -/
def busyState : TFState :=
  { model := { model := some 2, isReady := false, baseModel := true }
    trainingStatus := TrainingStatus.training
    trainingProgress := none
    trainingHistory := [{ epoch := 7, loss := 0, accuracy := 50 }]
    error := none }

/-- An idle hook state with a head built for 2 classes, not trained. -/
def idleState : TFState :=
  { model := { model := some 2, isReady := false, baseModel := true }
    trainingStatus := TrainingStatus.idle
    trainingProgress := none
    trainingHistory := []
    error := none }

/-- A hook state after a successful run: the model is ready. -/
def readyState : TFState :=
  { model := { model := some 2, isReady := true, baseModel := true }
    trainingStatus := TrainingStatus.completed
    trainingProgress := none
    trainingHistory := []
    error := none }

/-- A page session holding a trained, ready 2-class model. -/
def readySession : Session := { classes := [clsA, clsB], tf := readyState }

/-- A ready 3-class model state, for the prediction witnesses. -/
def readyState3 : TFState :=
  { model := { model := some 3, isReady := true, baseModel := true }
    trainingStatus := TrainingStatus.completed
    trainingProgress := none
    trainingHistory := []
    error := none }

/-- A concrete 1×1 pixel buffer whose only pixel has every channel
equal to 100. -/
def img100 : PixelBuffer := { width := 1, height := 1, pixel := fun _ _ _ => 100 }

/-- The ordering a correct stable descending sort must produce: the
earlier element has the larger confidence, and on equal confidences the
earlier element has the smaller class index (input order, since the
unsorted list is indexed in ascending order). -/
def predOrder {α : Type} [LinearOrderedField α] (a b : Prediction α) : Prop :=
  b.confidence ≤ a.confidence ∧ (a.confidence = b.confidence → a.classIndex < b.classIndex)

/-- Five concrete epoch logs, for the progress-stream witness. -/
def fiveLogs : List EpochLog :=
  [{ loss := 5, acc := 0, elapsedMs := 1000 }, { loss := 4, acc := 0, elapsedMs := 2000 },
    { loss := 3, acc := 0, elapsedMs := 3000 }, { loss := 2, acc := 1, elapsedMs := 4000 },
    { loss := 1, acc := 1, elapsedMs := 5000 }]

/-! Reduction lemmas for `startTraining` when both guards pass. -/

/-- On a successful run past both guards, `startTraining` completes:
status `'completed'`, error cleared, `isReady` set, tensors created and
disposed, history rebuilt by the callbacks. -/
theorem startTraining_valid_success (s : TFState) (classes : List TrainingClassData)
    (epochs : Nat) (logs : List EpochLog)
    (hm : s.model.model ≠ none) (h2 : 2 ≤ classes.length)
    (hinv : invalidClasses classes = []) :
    startTraining s classes epochs (RunOutcome.success logs) =
      { state := { s with
          trainingStatus := TrainingStatus.completed
          error := none
          trainingProgress :=
            (runCallbacks epochs (totalSamples classes) logs (s.trainingProgress, [])).1
          trainingHistory :=
            (runCallbacks epochs (totalSamples classes) logs (s.trainingProgress, [])).2
          model := { s.model with isReady := true } }
        emitted := emittedProgress epochs (totalSamples classes) logs
        tensorsAllocated := true
        xsDisposed := true
        ysDisposed := true } := by
  unfold startTraining
  rw [if_neg (by push_neg; exact ⟨hm, h2⟩), if_neg (by rw [hinv]; simp)]

/-- On a run that fails inside `trainModel` past both guards,
`startTraining` ends in `'error'` with the catch-block message; the
model record (in particular `isReady`) is untouched and the tensors
are not disposed. -/
theorem startTraining_valid_failure (s : TFState) (classes : List TrainingClassData)
    (epochs : Nat) (logs : List EpochLog)
    (hm : s.model.model ≠ none) (h2 : 2 ≤ classes.length)
    (hinv : invalidClasses classes = []) :
    startTraining s classes epochs (RunOutcome.failure logs) =
      { state := { s with
          trainingStatus := TrainingStatus.error
          error := some trainingFailedMsg
          trainingProgress :=
            (runCallbacks epochs (totalSamples classes) logs (s.trainingProgress, [])).1
          trainingHistory :=
            (runCallbacks epochs (totalSamples classes) logs (s.trainingProgress, [])).2 }
        emitted := emittedProgress epochs (totalSamples classes) logs
        tensorsAllocated := true
        xsDisposed := false
        ysDisposed := false } := by
  unfold startTraining
  rw [if_neg (by push_neg; exact ⟨hm, h2⟩), if_neg (by rw [hinv]; simp)]

/-- On a run that fails during data preparation past both guards,
`startTraining` ends in `'error'` with the catch-block message, an
empty (reset) history and no emitted progress. -/
theorem startTraining_valid_prepFailure (s : TFState) (classes : List TrainingClassData)
    (epochs : Nat)
    (hm : s.model.model ≠ none) (h2 : 2 ≤ classes.length)
    (hinv : invalidClasses classes = []) :
    startTraining s classes epochs RunOutcome.prepFailure =
      { state := { s with
          trainingStatus := TrainingStatus.error
          error := some trainingFailedMsg
          trainingHistory := [] }
        emitted := []
        tensorsAllocated := false
        xsDisposed := false
        ysDisposed := false } := by
  unfold startTraining
  rw [if_neg (by push_neg; exact ⟨hm, h2⟩), if_neg (by rw [hinv]; simp)]

/-- C1, counterexample.  In a state captured mid-run (status
`'training'`, non-empty history), a second `startTraining` call with
valid classes is not rejected: it allocates tensors, runs to
completion, emits progress, and replaces the original run's history —
no `TrainingAlreadyRunning` rejection occurs. -/
theorem C1_counterexample :
    busyState.trainingStatus = TrainingStatus.training ∧
    (startTraining busyState [clsA, clsB] 1 (RunOutcome.success [oneLog])).tensorsAllocated
      = true ∧
    (startTraining busyState [clsA, clsB] 1 (RunOutcome.success [oneLog])).state.trainingStatus
      = TrainingStatus.completed ∧
    (startTraining busyState [clsA, clsB] 1 (RunOutcome.success [oneLog])).emitted.length = 1 ∧
    (startTraining busyState [clsA, clsB] 1 (RunOutcome.success [oneLog])).state.trainingHistory
      ≠ busyState.trainingHistory := by
  decide

/-- C1, amended.  `startTraining` never consults `trainingStatus`: a
second invocation while the status is `'training'` behaves exactly as
it would from an idle state — it passes the same two guards, starts a
new run (allocating tensors unless preparation itself failed) and
resets the shared training history to the new run's records. -/
theorem C1_no_running_guard (s : TFState) (classes : List TrainingClassData)
    (epochs : Nat) (outcome : RunOutcome)
    (_hrun : s.trainingStatus = TrainingStatus.training)
    (hm : s.model.model ≠ none) (h2 : 2 ≤ classes.length)
    (hinv : invalidClasses classes = []) :
    startTraining s classes epochs outcome =
      startTraining { s with trainingStatus := TrainingStatus.idle } classes epochs outcome ∧
    (outcome ≠ RunOutcome.prepFailure →
      (startTraining s classes epochs outcome).tensorsAllocated = true) ∧
    (startTraining s classes epochs outcome).state.trainingHistory =
      (runCallbacks epochs (totalSamples classes) outcome.logs (s.trainingProgress, [])).2 := by
  cases outcome with
  | success logs =>
    rw [startTraining_valid_success s classes epochs logs hm h2 hinv,
      startTraining_valid_success { s with trainingStatus := TrainingStatus.idle }
        classes epochs logs hm h2 hinv]
    exact ⟨rfl, fun _ => rfl, rfl⟩
  | failure logs =>
    rw [startTraining_valid_failure s classes epochs logs hm h2 hinv,
      startTraining_valid_failure { s with trainingStatus := TrainingStatus.idle }
        classes epochs logs hm h2 hinv]
    exact ⟨rfl, fun _ => rfl, rfl⟩
  | prepFailure =>
    rw [startTraining_valid_prepFailure s classes epochs hm h2 hinv,
      startTraining_valid_prepFailure { s with trainingStatus := TrainingStatus.idle }
        classes epochs hm h2 hinv]
    exact ⟨rfl, fun hc => absurd rfl hc, rfl⟩

/-- C1, witness for the amended theorem at a concrete mid-run state. -/
theorem C1_no_running_guard_witness :
    startTraining busyState [clsA, clsB] 2 (RunOutcome.failure [oneLog]) =
      startTraining { busyState with trainingStatus := TrainingStatus.idle }
        [clsA, clsB] 2 (RunOutcome.failure [oneLog]) ∧
    (RunOutcome.failure [oneLog] ≠ RunOutcome.prepFailure →
      (startTraining busyState [clsA, clsB] 2 (RunOutcome.failure [oneLog])).tensorsAllocated
        = true) ∧
    (startTraining busyState [clsA, clsB] 2
        (RunOutcome.failure [oneLog])).state.trainingHistory =
      (runCallbacks 2 (totalSamples [clsA, clsB]) (RunOutcome.failure [oneLog]).logs
        (busyState.trainingProgress, [])).2 :=
  C1_no_running_guard busyState [clsA, clsB] 2 (RunOutcome.failure [oneLog])
    rfl (by decide) (by decide) (by decide)

/-- C2, counterexample.  A run that reaches tensor creation and then
fails leaves both `xs` and `ys` undisposed: the `dispose` calls sit on
the success path only, and the catch block performs no cleanup. -/
theorem C2_counterexample :
    (startTraining idleState [clsA, clsB] 5 (RunOutcome.failure [oneLog])).tensorsAllocated
      = true ∧
    (startTraining idleState [clsA, clsB] 5 (RunOutcome.failure [oneLog])).xsDisposed = false ∧
    (startTraining idleState [clsA, clsB] 5 (RunOutcome.failure [oneLog])).ysDisposed = false := by
  decide

/-- C2, amended.  The tensors `xs` and `ys` of a run are disposed when
training completes successfully, but on a run that fails after tensor
creation the exception path performs no disposal, so both tensors
leak. -/
theorem C2_dispose_paths (s : TFState) (classes : List TrainingClassData) (epochs : Nat)
    (hm : s.model.model ≠ none) (h2 : 2 ≤ classes.length)
    (hinv : invalidClasses classes = []) :
    (∀ logs,
      (startTraining s classes epochs (RunOutcome.success logs)).tensorsAllocated = true ∧
      (startTraining s classes epochs (RunOutcome.success logs)).xsDisposed = true ∧
      (startTraining s classes epochs (RunOutcome.success logs)).ysDisposed = true) ∧
    (∀ logs,
      (startTraining s classes epochs (RunOutcome.failure logs)).tensorsAllocated = true ∧
      (startTraining s classes epochs (RunOutcome.failure logs)).xsDisposed = false ∧
      (startTraining s classes epochs (RunOutcome.failure logs)).ysDisposed = false) := by
  constructor
  · intro logs
    rw [startTraining_valid_success _ _ _ _ hm h2 hinv]
    exact ⟨rfl, rfl, rfl⟩
  · intro logs
    rw [startTraining_valid_failure _ _ _ _ hm h2 hinv]
    exact ⟨rfl, rfl, rfl⟩

/-- C2, witness for the amended theorem at a concrete state. -/
theorem C2_dispose_paths_witness :
    ((startTraining idleState [clsA, clsB] 3 (RunOutcome.success [oneLog])).xsDisposed = true ∧
      (startTraining idleState [clsA, clsB] 3 (RunOutcome.success [oneLog])).ysDisposed
        = true) ∧
    ((startTraining idleState [clsA, clsB] 3 (RunOutcome.failure [oneLog])).xsDisposed
        = false ∧
      (startTraining idleState [clsA, clsB] 3 (RunOutcome.failure [oneLog])).ysDisposed
        = false) := by
  have h := C2_dispose_paths idleState [clsA, clsB] 3 (by decide) (by decide) (by decide)
  exact ⟨⟨(h.1 [oneLog]).2.1, (h.1 [oneLog]).2.2⟩, ⟨(h.2 [oneLog]).2.1, (h.2 [oneLog]).2.2⟩⟩

/-- C3.  Any exception during data preparation or a fit step sends the
run to the `'error'` status with the single catch-block message, and
leaves `isReady` exactly as it was before the run started: a failed
retrain does not revoke a previously ready model. -/
theorem C3_failed_run_preserves_ready (s : TFState) (classes : List TrainingClassData)
    (epochs : Nat) (outcome : RunOutcome)
    (hm : s.model.model ≠ none) (h2 : 2 ≤ classes.length)
    (hinv : invalidClasses classes = [])
    (hfail : outcome.isSuccess = false) :
    (startTraining s classes epochs outcome).state.trainingStatus = TrainingStatus.error ∧
    (startTraining s classes epochs outcome).state.error = some trainingFailedMsg ∧
    (startTraining s classes epochs outcome).state.model.isReady = s.model.isReady := by
  cases outcome with
  | success logs => simp [RunOutcome.isSuccess] at hfail
  | failure logs =>
    rw [startTraining_valid_failure _ _ _ _ hm h2 hinv]
    exact ⟨rfl, rfl, rfl⟩
  | prepFailure =>
    rw [startTraining_valid_prepFailure _ _ _ hm h2 hinv]
    exact ⟨rfl, rfl, rfl⟩

/-- C3, witness: a previously ready model stays ready through a failed
retrain. -/
theorem C3_failed_run_preserves_ready_witness :
    (startTraining readyState [clsA, clsB] 4
        (RunOutcome.failure [oneLog])).state.trainingStatus = TrainingStatus.error ∧
    (startTraining readyState [clsA, clsB] 4 (RunOutcome.failure [oneLog])).state.error
      = some trainingFailedMsg ∧
    (startTraining readyState [clsA, clsB] 4
        (RunOutcome.failure [oneLog])).state.model.isReady = readyState.model.isReady :=
  C3_failed_run_preserves_ready readyState [clsA, clsB] 4 (RunOutcome.failure [oneLog])
    (by decide) (by decide) (by decide) (by decide)

/-- C6, counterexample.  An invocation in which a class has zero
samples does not always fail with the empty-class error: with a single
(empty) class the model/class-count guard fires first, producing the
`'Model not ready or insufficient classes'` message instead.  (Such a
state is reachable: build a 2-class head, then delete one class — the
page effect does not rebuild the head below 2 classes.) -/
theorem C6_counterexample :
    clsEmpty.samples.length = 0 ∧
    (startTraining idleState [clsEmpty] 5 (RunOutcome.success [])).state.error
      = some insufficientMsg ∧
    insufficientMsg ≠ emptyClassMsg [clsEmpty] ∧
    (startTraining idleState [clsEmpty] 5 (RunOutcome.success [])).tensorsAllocated = false := by
  decide

/-- C6, amended.  When the transfer head exists and there are at least
2 classes, an invocation with a zero-sample class fails with the
empty-class error before any tensor work: no tensors are allocated, the
progress stream is empty, and status and history are untouched. -/
theorem C6_empty_class_fail_fast (s : TFState) (classes : List TrainingClassData)
    (epochs : Nat) (outcome : RunOutcome)
    (hm : s.model.model ≠ none) (h2 : 2 ≤ classes.length)
    (hempty : (invalidClasses classes).length > 0) :
    (startTraining s classes epochs outcome).state.error = some (emptyClassMsg classes) ∧
    (startTraining s classes epochs outcome).tensorsAllocated = false ∧
    (startTraining s classes epochs outcome).emitted = [] ∧
    (startTraining s classes epochs outcome).state.trainingStatus = s.trainingStatus ∧
    (startTraining s classes epochs outcome).state.trainingHistory = s.trainingHistory := by
  unfold startTraining
  rw [if_neg (by push_neg; exact ⟨hm, h2⟩), if_pos hempty]
  exact ⟨rfl, rfl, rfl, rfl, rfl⟩

/-- C6, witness for the amended theorem: one empty class among three. -/
theorem C6_empty_class_fail_fast_witness :
    (startTraining idleState [clsA, clsEmpty, clsB] 5 (RunOutcome.success [oneLog])).state.error
      = some (emptyClassMsg [clsA, clsEmpty, clsB]) ∧
    (startTraining idleState [clsA, clsEmpty, clsB] 5
        (RunOutcome.success [oneLog])).tensorsAllocated = false ∧
    (startTraining idleState [clsA, clsEmpty, clsB] 5 (RunOutcome.success [oneLog])).emitted
      = [] ∧
    (startTraining idleState [clsA, clsEmpty, clsB] 5
        (RunOutcome.success [oneLog])).state.trainingStatus = idleState.trainingStatus ∧
    (startTraining idleState [clsA, clsEmpty, clsB] 5
        (RunOutcome.success [oneLog])).state.trainingHistory = idleState.trainingHistory :=
  C6_empty_class_fail_fast idleState [clsA, clsEmpty, clsB] 5 (RunOutcome.success [oneLog])
    (by decide) (by decide) (by decide)

/-! Readiness lemmas for the page state machine. -/

/-- A training run whose outcome is not a success never changes
`isReady` (only the success branch of `startTraining` touches the model
record). -/
theorem startTraining_isReady_of_not_success (s : TFState) (classes : List TrainingClassData)
    (epochs : Nat) (outcome : RunOutcome) (hfail : outcome.isSuccess = false) :
    (startTraining s classes epochs outcome).state.model.isReady = s.model.isReady := by
  unfold startTraining
  cases outcome with
  | success logs => simp [RunOutcome.isSuccess] at hfail
  | failure logs =>
    split
    · rfl
    · split
      · rfl
      · rfl
  | prepFailure =>
    split
    · rfl
    · split
      · rfl
      · rfl

/-- The `createModel` embedding never sets `isReady`; it either leaves
the model record alone or rebuilds the head with `isReady := false`. -/
theorem createModel_isReady_false (s : TFState) (classes : List TrainingClassData)
    (h : s.model.isReady = false) :
    (createModel s classes).model.isReady = false := by
  unfold createModel
  split
  · exact h
  · rfl

/-- The class-change effect preserves `isReady = false`. -/
theorem classEffect_isReady_false (s : Session) (h : s.tf.model.isReady = false) :
    (classEffect s).tf.model.isReady = false := by
  unfold classEffect
  split
  · exact createModel_isReady_false _ _ h
  · exact h

/-- No event other than a successfully completed training run can turn
`isReady` on. -/
theorem sessionStep_isReady_false (s : Session) (e : Event)
    (h : s.tf.model.isReady = false) (hns : e.isSuccessTrain = false) :
    (sessionStep s e).tf.model.isReady = false := by
  cases e with
  | setClasses cs => exact classEffect_isReady_false _ h
  | train epochs outcome =>
    have : outcome.isSuccess = false := hns
    rw [sessionStep]
    rw [startTraining_isReady_of_not_success _ _ _ _ this]
    exact h
  | loadBase => exact classEffect_isReady_false _ h

/-- Over any event sequence that contains no successfully completed
training run, `isReady = false` is invariant. -/
theorem runEvents_isReady_false (evs : List Event) : ∀ (s : Session),
    s.tf.model.isReady = false → (∀ e ∈ evs, e.isSuccessTrain = false) →
    (runEvents s evs).tf.model.isReady = false := by
  induction evs with
  | nil => intro s h _; exact h
  | cons e rest ih =>
    intro s h hall
    have h1 : (sessionStep s e).tf.model.isReady = false :=
      sessionStep_isReady_false s e h (hall e (List.mem_cons_self e rest))
    exact ih (sessionStep s e) h1 (fun x hx => hall x (List.mem_cons_of_mem e hx))

/-- With the base model loaded and at least two classes, any class-list
update rebuilds the head for the new class count and forces
`isReady := false`. -/
theorem setClasses_rebuilds_head (s : Session) (cs : List TrainingClassData)
    (hbase : s.tf.model.baseModel = true) (hlen : 2 ≤ cs.length) :
    (sessionStep s (Event.setClasses cs)).tf.model.isReady = false ∧
    (sessionStep s (Event.setClasses cs)).tf.model.model = some cs.length := by
  rw [sessionStep]
  unfold classEffect
  rw [if_pos (by exact ⟨hbase, hlen⟩)]
  unfold createModel
  rw [if_neg (by push_neg; exact ⟨by simpa using hbase, hlen⟩)]
  exact ⟨rfl, rfl⟩

/-- C5.  Changing the class list (e.g. from 2 to 3 classes) while the
base model is loaded rebuilds the trainable head for the new class
count with `isReady = false`, and readiness stays false across any
further events until some training run completes successfully. -/
theorem C5_class_change_resets_ready (s : Session) (cs : List TrainingClassData)
    (evs : List Event)
    (hbase : s.tf.model.baseModel = true) (hlen : 2 ≤ cs.length)
    (hevs : ∀ e ∈ evs, e.isSuccessTrain = false) :
    (sessionStep s (Event.setClasses cs)).tf.model.isReady = false ∧
    (sessionStep s (Event.setClasses cs)).tf.model.model = some cs.length ∧
    (runEvents (sessionStep s (Event.setClasses cs)) evs).tf.model.isReady = false := by
  obtain ⟨h1, h2⟩ := setClasses_rebuilds_head s cs hbase hlen
  exact ⟨h1, h2, runEvents_isReady_false evs _ h1 hevs⟩

/-- C5, witness: growing a trained 2-class session to 3 classes resets
readiness, and it stays false through a subsequent failed retrain. -/
theorem C5_class_change_resets_ready_witness :
    (sessionStep readySession (Event.setClasses [clsA, clsB, clsC])).tf.model.isReady = false ∧
    (sessionStep readySession (Event.setClasses [clsA, clsB, clsC])).tf.model.model = some 3 ∧
    (runEvents (sessionStep readySession (Event.setClasses [clsA, clsB, clsC]))
      [Event.train 5 (RunOutcome.failure [oneLog]), Event.setClasses [clsA, clsB, clsC]]).tf.model.isReady
      = false :=
  C5_class_change_resets_ready readySession [clsA, clsB, clsC]
    [Event.train 5 (RunOutcome.failure [oneLog]), Event.setClasses [clsA, clsB, clsC]]
    (by decide) (by decide) (by decide)

/-- C10 (implicit).  The page effect keys on the class-list object, not
on its count: with a base model and at least 2 classes, every
`setClasses` update — including a mere rename or a single added or
removed sample — rebuilds the head and resets `isReady` to false, so a
ready model becomes unready on any such change. -/
theorem C10_any_class_change_unready (s : Session) (cs : List TrainingClassData)
    (_hready : s.tf.model.isReady = true)
    (hbase : s.tf.model.baseModel = true) (hlen : 2 ≤ cs.length) :
    (sessionStep s (Event.setClasses cs)).tf.model.isReady = false ∧
    (sessionStep s (Event.setClasses cs)).tf.model.model = some cs.length := by
  exact setClasses_rebuilds_head s cs hbase hlen

/-- C10, witness: renaming one class of a ready session (same class
count, same samples) makes the model unready. -/
theorem C10_any_class_change_unready_witness :
    (sessionStep readySession (Event.setClasses [clsARenamed, clsB])).tf.model.isReady = false ∧
    (sessionStep readySession (Event.setClasses [clsARenamed, clsB])).tf.model.model
      = some 2 :=
  C10_any_class_change_unready readySession [clsARenamed, clsB]
    (by decide) (by decide) (by decide)

/-! Lemmas about the callback fold and the training history. -/

/-- The history component of the callback fold: each step appends one
record, so the fold appends the mapped records to the initial
history. -/
theorem foldl_callbackStep_snd (epochs n : Nat) (l : List (Nat × EpochLog)) :
    ∀ init : Option TrainingProgress × List HistoryRecord,
    (l.foldl (callbackStep epochs n) init).2
      = init.2 ++ l.map (fun p => historyRecord p.1 p.2) := by
  induction l with
  | nil => intro init; simp
  | cons a t ih =>
    intro init
    rw [List.foldl_cons, ih]
    simp [callbackStep]

/-- The final history of a run is the per-epoch records in order. -/
theorem runCallbacks_snd (epochs n : Nat) (logs : List EpochLog)
    (init : Option TrainingProgress × List HistoryRecord) :
    (runCallbacks epochs n logs init).2
      = init.2 ++ logs.enum.map (fun p => historyRecord p.1 p.2) := by
  unfold runCallbacks
  exact foldl_callbackStep_snd epochs n logs.enum init

/-- Indexing the mapped progress records of an enumeration that starts
at `k`. -/
theorem enumFrom_progress_getD (epochs n : Nat) (logs : List EpochLog) :
    ∀ (k i : Nat), i < logs.length →
    ((List.enumFrom k logs).map (fun p => progressRecord epochs n p.1 p.2)).getD i noProgress
      = progressRecord epochs n (k + i) (logs.getD i noLog) := by
  induction logs with
  | nil => intro k i h; simp at h
  | cons a t ih =>
    intro k i h
    cases i with
    | zero => simp [List.enumFrom]
    | succ j =>
      have hj : j < t.length := by simpa using h
      have h3 : k + 1 + j = k + (j + 1) := by omega
      simp only [List.enumFrom, List.map_cons, List.getD_cons_succ]
      rw [ih (k + 1) j hj, h3]

/-- The `i`-th emitted progress record of a run. -/
theorem emittedProgress_getD (epochs n : Nat) (logs : List EpochLog) (i : Nat)
    (h : i < logs.length) :
    (emittedProgress epochs n logs).getD i noProgress
      = progressRecord epochs n i (logs.getD i noLog) := by
  have h0 := enumFrom_progress_getD epochs n logs 0 i h
  simpa [emittedProgress, List.enum] using h0

/-- One progress record is emitted per epoch callback. -/
theorem emittedProgress_length (epochs n : Nat) (logs : List EpochLog) :
    (emittedProgress epochs n logs).length = logs.length := by
  simp [emittedProgress]

/-- Extending the mapped history prefix by one epoch appends exactly
one record. -/
theorem enumFrom_history_take_succ (logs : List EpochLog) :
    ∀ (m k : Nat), k < logs.length →
    (List.enumFrom m (logs.take (k + 1))).map (fun p => historyRecord p.1 p.2)
      = (List.enumFrom m (logs.take k)).map (fun p => historyRecord p.1 p.2)
        ++ [historyRecord (m + k) (logs.getD k noLog)] := by
  induction logs with
  | nil => intro m k h; simp at h
  | cons a t ih =>
    intro m k h
    cases k with
    | zero => simp [List.enumFrom]
    | succ j =>
      have hj : j < t.length := by simpa using h
      have h3 : m + 1 + j = m + (j + 1) := by omega
      simp only [List.take_succ_cons, List.enumFrom, List.map_cons, List.getD_cons_succ,
        List.cons_append]
      rw [ih (m + 1) j hj, h3]

/-- The history starts empty (it is reset at run start). -/
theorem historyAfter_zero (epochs n : Nat) (logs : List EpochLog) :
    historyAfter epochs n logs 0 = [] := rfl

/-- Closed form of the history after `k` callbacks. -/
theorem historyAfter_eq_map (epochs n : Nat) (logs : List EpochLog) (k : Nat) :
    historyAfter epochs n logs k
      = (List.enumFrom 0 (logs.take k)).map (fun p => historyRecord p.1 p.2) := by
  unfold historyAfter
  rw [runCallbacks_snd]
  simp [List.enum]

/-- Each epoch callback appends exactly one record to the history and
never mutates or truncates it: the history is append-only during a
run. -/
theorem historyAfter_succ (epochs n : Nat) (logs : List EpochLog) (k : Nat)
    (h : k < logs.length) :
    historyAfter epochs n logs (k + 1)
      = historyAfter epochs n logs k ++ [historyRecord k (logs.getD k noLog)] := by
  rw [historyAfter_eq_map, historyAfter_eq_map]
  have h0 := enumFrom_history_take_succ logs 0 k h
  simpa using h0

/-- C9.  A run that completes all `E` epochs emits exactly `E` progress
records; the `i`-th (0-based) record carries the 1-based epoch index
`i + 1`, the total epoch count, the elapsed seconds, the loss, the
scaled accuracy and the total sample count; each callback appends
exactly one record to the training-history log, which grows
append-only from empty to the full per-epoch list; and the run ends
`'completed'` with a ready model. -/
theorem C9_progress_records (s : TFState) (classes : List TrainingClassData)
    (epochs : Nat) (logs : List EpochLog)
    (hm : s.model.model ≠ none) (h2 : 2 ≤ classes.length)
    (hinv : invalidClasses classes = []) (hlen : logs.length = epochs) :
    (startTraining s classes epochs (RunOutcome.success logs)).emitted.length = epochs ∧
    (∀ i, i < epochs →
      (startTraining s classes epochs (RunOutcome.success logs)).emitted.getD i noProgress
        = progressRecord epochs (totalSamples classes) i (logs.getD i noLog) ∧
      ((startTraining s classes epochs
          (RunOutcome.success logs)).emitted.getD i noProgress).epoch = i + 1 ∧
      ((startTraining s classes epochs
          (RunOutcome.success logs)).emitted.getD i noProgress).totalEpochs = epochs ∧
      ((startTraining s classes epochs
          (RunOutcome.success logs)).emitted.getD i noProgress).samplesProcessed
        = totalSamples classes ∧
      ((startTraining s classes epochs
          (RunOutcome.success logs)).emitted.getD i noProgress).loss
        = (logs.getD i noLog).loss ∧
      ((startTraining s classes epochs
          (RunOutcome.success logs)).emitted.getD i noProgress).accuracy
        = (logs.getD i noLog).acc * 100 ∧
      ((startTraining s classes epochs
          (RunOutcome.success logs)).emitted.getD i noProgress).timeElapsed
        = (logs.getD i noLog).elapsedMs / 1000) ∧
    (startTraining s classes epochs (RunOutcome.success logs)).state.trainingHistory
      = historyAfter epochs (totalSamples classes) logs epochs ∧
    historyAfter epochs (totalSamples classes) logs 0 = [] ∧
    (∀ k, k < epochs →
      historyAfter epochs (totalSamples classes) logs (k + 1)
        = historyAfter epochs (totalSamples classes) logs k
          ++ [historyRecord k (logs.getD k noLog)]) ∧
    (startTraining s classes epochs (RunOutcome.success logs)).state.trainingStatus
      = TrainingStatus.completed ∧
    (startTraining s classes epochs (RunOutcome.success logs)).state.model.isReady = true := by
  rw [startTraining_valid_success s classes epochs logs hm h2 hinv]
  refine ⟨?_, ?_, ?_, historyAfter_zero _ _ _, ?_, rfl, rfl⟩
  · show (emittedProgress epochs (totalSamples classes) logs).length = epochs
    rw [emittedProgress_length]
    exact hlen
  · intro i hi
    have hi' : i < logs.length := hlen ▸ hi
    have hg := emittedProgress_getD epochs (totalSamples classes) logs i hi'
    exact ⟨hg, congrArg TrainingProgress.epoch hg, congrArg TrainingProgress.totalEpochs hg,
      congrArg TrainingProgress.samplesProcessed hg, congrArg TrainingProgress.loss hg,
      congrArg TrainingProgress.accuracy hg, congrArg TrainingProgress.timeElapsed hg⟩
  · show (runCallbacks epochs (totalSamples classes) logs (s.trainingProgress, [])).2
      = historyAfter epochs (totalSamples classes) logs epochs
    rw [runCallbacks_snd, historyAfter_eq_map]
    have ht : logs.take epochs = logs := by
      rw [← hlen]; exact List.take_length logs
    rw [ht]
    simp [List.enum]
  · intro k hk
    exact historyAfter_succ epochs (totalSamples classes) logs k (hlen ▸ hk)

/-- C9, witness: a 5-epoch run over two 1-sample classes. -/
theorem C9_progress_records_witness :
    (startTraining idleState [clsA, clsB] 5 (RunOutcome.success fiveLogs)).emitted.length = 5 ∧
    (∀ i, i < 5 →
      (startTraining idleState [clsA, clsB] 5
          (RunOutcome.success fiveLogs)).emitted.getD i noProgress
        = progressRecord 5 (totalSamples [clsA, clsB]) i (fiveLogs.getD i noLog) ∧
      ((startTraining idleState [clsA, clsB] 5
          (RunOutcome.success fiveLogs)).emitted.getD i noProgress).epoch = i + 1 ∧
      ((startTraining idleState [clsA, clsB] 5
          (RunOutcome.success fiveLogs)).emitted.getD i noProgress).totalEpochs = 5 ∧
      ((startTraining idleState [clsA, clsB] 5
          (RunOutcome.success fiveLogs)).emitted.getD i noProgress).samplesProcessed
        = totalSamples [clsA, clsB] ∧
      ((startTraining idleState [clsA, clsB] 5
          (RunOutcome.success fiveLogs)).emitted.getD i noProgress).loss
        = (fiveLogs.getD i noLog).loss ∧
      ((startTraining idleState [clsA, clsB] 5
          (RunOutcome.success fiveLogs)).emitted.getD i noProgress).accuracy
        = (fiveLogs.getD i noLog).acc * 100 ∧
      ((startTraining idleState [clsA, clsB] 5
          (RunOutcome.success fiveLogs)).emitted.getD i noProgress).timeElapsed
        = (fiveLogs.getD i noLog).elapsedMs / 1000) ∧
    (startTraining idleState [clsA, clsB] 5
        (RunOutcome.success fiveLogs)).state.trainingHistory
      = historyAfter 5 (totalSamples [clsA, clsB]) fiveLogs 5 ∧
    historyAfter 5 (totalSamples [clsA, clsB]) fiveLogs 0 = [] ∧
    (∀ k, k < 5 →
      historyAfter 5 (totalSamples [clsA, clsB]) fiveLogs (k + 1)
        = historyAfter 5 (totalSamples [clsA, clsB]) fiveLogs k
          ++ [historyRecord k (fiveLogs.getD k noLog)]) ∧
    (startTraining idleState [clsA, clsB] 5
        (RunOutcome.success fiveLogs)).state.trainingStatus = TrainingStatus.completed ∧
    (startTraining idleState [clsA, clsB] 5
        (RunOutcome.success fiveLogs)).state.model.isReady = true :=
  C9_progress_records idleState [clsA, clsB] 5 fiveLogs
    (by decide) (by decide) (by decide) (by decide)

/-! Lemmas about the prediction sort. -/

/-- Membership in an insertion. -/
theorem mem_insertByConf {α : Type} [LinearOrderedField α] (p : Prediction α) :
    ∀ (l : List (Prediction α)) (x : Prediction α),
    x ∈ insertByConf p l ↔ x = p ∨ x ∈ l := by
  intro l
  induction l with
  | nil => intro x; simp [insertByConf]
  | cons q qs ih =>
    intro x
    unfold insertByConf
    split
    · rw [List.mem_cons, ih x, List.mem_cons]
      tauto
    · simp only [List.mem_cons]

/-- Inserting an element whose class index is below every index in a
correctly ordered list keeps the list correctly ordered. -/
theorem pairwise_insertByConf {α : Type} [LinearOrderedField α] (p : Prediction α) :
    ∀ (l : List (Prediction α)), l.Pairwise predOrder →
    (∀ q ∈ l, p.classIndex < q.classIndex) →
    (insertByConf p l).Pairwise predOrder := by
  intro l
  induction l with
  | nil => intro _ _; simp [insertByConf, predOrder]
  | cons q qs ih =>
    intro hl hidx
    rw [List.pairwise_cons] at hl
    obtain ⟨hq, hqs⟩ := hl
    unfold insertByConf
    split
    · rename_i hc
      rw [List.pairwise_cons]
      constructor
      · intro x hx
        rw [mem_insertByConf] at hx
        cases hx with
        | inl he =>
          subst he
          exact ⟨le_of_lt hc, fun heq => absurd hc (by rw [heq]; exact lt_irrefl _)⟩
        | inr hin => exact hq x hin
      · exact ih hqs (fun r hr => hidx r (List.mem_cons_of_mem q hr))
    · rename_i hc
      have hle : q.confidence ≤ p.confidence := not_lt.mp hc
      rw [List.pairwise_cons]
      constructor
      · intro x hx
        rw [List.mem_cons] at hx
        cases hx with
        | inl he =>
          subst he
          exact ⟨hle, fun _ => hidx x (List.mem_cons_self x qs)⟩
        | inr hin =>
          have hqx := hq x hin
          exact ⟨le_trans hqx.1 hle, fun _ => hidx x (List.mem_cons_of_mem q hin)⟩
      · rw [List.pairwise_cons]
        exact ⟨hq, hqs⟩

/-- Sorting does not change membership. -/
theorem mem_sortByConfDesc {α : Type} [LinearOrderedField α] :
    ∀ (l : List (Prediction α)) (x : Prediction α), x ∈ sortByConfDesc l ↔ x ∈ l := by
  intro l
  induction l with
  | nil => intro x; simp [sortByConfDesc]
  | cons p ps ih =>
    intro x
    unfold sortByConfDesc
    rw [mem_insertByConf, ih x, List.mem_cons]

/-- The stable insertion sort of a list with strictly increasing class
indices is correctly ordered: non-increasing confidences, ties by
ascending class index. -/
theorem pairwise_sortByConfDesc {α : Type} [LinearOrderedField α] :
    ∀ (l : List (Prediction α)),
    l.Pairwise (fun a b => a.classIndex < b.classIndex) →
    (sortByConfDesc l).Pairwise predOrder := by
  intro l
  induction l with
  | nil => intro _; simp [sortByConfDesc]
  | cons p ps ih =>
    intro hl
    rw [List.pairwise_cons] at hl
    unfold sortByConfDesc
    exact pairwise_insertByConf p (sortByConfDesc ps) (ih hl.2)
      (fun q hq => hl.1 q ((mem_sortByConfDesc ps q).mp hq))

/-- Every prediction built from start index `i` has class index at
least `i`. -/
theorem mem_rawPredictionsFrom_idx {α : Type} [LinearOrderedField α]
    (classes : List TrainingClassData) :
    ∀ (probs : List α) (i : Nat) (q : Prediction α),
    q ∈ rawPredictionsFrom classes i probs → i ≤ q.classIndex := by
  intro probs
  induction probs with
  | nil => intro i q h; simp [rawPredictionsFrom] at h
  | cons c rest ih =>
    intro i q h
    rw [show rawPredictionsFrom classes i (c :: rest)
        = { className := classNameAt classes i, confidence := c * 100, classIndex := i }
          :: rawPredictionsFrom classes (i + 1) rest from rfl, List.mem_cons] at h
    cases h with
    | inl he => subst he; exact le_refl i
    | inr hin => exact le_trans (Nat.le_succ i) (ih (i + 1) q hin)

/-- The unsorted prediction list carries strictly increasing class
indices. -/
theorem pairwise_idx_rawPredictionsFrom {α : Type} [LinearOrderedField α]
    (classes : List TrainingClassData) :
    ∀ (probs : List α) (i : Nat),
    (rawPredictionsFrom classes i probs).Pairwise
      (fun a b => a.classIndex < b.classIndex) := by
  intro probs
  induction probs with
  | nil => intro i; simp [rawPredictionsFrom]
  | cons c rest ih =>
    intro i
    rw [show rawPredictionsFrom classes i (c :: rest)
        = { className := classNameAt classes i, confidence := c * 100, classIndex := i }
          :: rawPredictionsFrom classes (i + 1) rest from rfl, List.pairwise_cons]
    exact ⟨fun q hq => Nat.lt_of_succ_le (mem_rawPredictionsFrom_idx classes rest (i + 1) q hq),
      ih (i + 1)⟩

/-- C4.  For a ready model, `makePrediction` returns a list sorted
non-increasing by confidence, and whenever two entries have equal
confidence the one with the smaller class index comes first (the JS
sort is stable and the unsorted list is in ascending index order). -/
theorem C4_predictions_sorted (model : MLModel) (classes : List TrainingClassData)
    (probs : List ℚ) (hm : model.model ≠ none) (hr : model.isReady = true) :
    ∃ preds, makePrediction model classes probs = Except.ok preds ∧
      preds.Pairwise (fun a b => b.confidence ≤ a.confidence) ∧
      preds.Pairwise (fun a b => a.confidence = b.confidence → a.classIndex < b.classIndex) := by
  have h := pairwise_sortByConfDesc (rawPredictions classes probs)
    (pairwise_idx_rawPredictionsFrom classes probs 0)
  refine ⟨sortByConfDesc (rawPredictions classes probs), ?_, ?_, ?_⟩
  · unfold makePrediction
    rw [if_neg (by push_neg; exact ⟨hm, by rw [hr]; exact fun hcontra => by cases hcontra⟩)]
  · exact h.imp (fun hab => hab.1)
  · exact h.imp (fun hab => hab.2)

/-- C4, witness: a crafted 3-class model with equal probabilities for
classes 0 and 2 — the sorted output obeys both orderings, so class 0
precedes class 2. -/
theorem C4_predictions_sorted_witness :
    readyState3.model.model ≠ none ∧ readyState3.model.isReady = true ∧
    (∃ preds,
      makePrediction readyState3.model [clsA, clsB, clsC] [(2 : ℚ)/5, 1/5, 2/5]
        = Except.ok preds ∧
      preds.Pairwise (fun a b => b.confidence ≤ a.confidence) ∧
      preds.Pairwise (fun a b => a.confidence = b.confidence → a.classIndex < b.classIndex)) :=
  ⟨by decide, rfl,
    C4_predictions_sorted readyState3.model [clsA, clsB, clsC] [(2 : ℚ)/5, 1/5, 2/5]
      (by decide) rfl⟩

/-! Lemmas for the softmax-sum property. -/

/-- The confidences of the unsorted prediction list are the
probabilities scaled by 100. -/
theorem map_confidence_rawPredictionsFrom {α : Type} [LinearOrderedField α]
    (classes : List TrainingClassData) :
    ∀ (probs : List α) (i : Nat),
    (rawPredictionsFrom classes i probs).map (fun p => p.confidence)
      = probs.map (fun c => c * 100) := by
  intro probs
  induction probs with
  | nil => intro i; rfl
  | cons c rest ih =>
    intro i
    rw [show rawPredictionsFrom classes i (c :: rest)
        = { className := classNameAt classes i, confidence := c * 100, classIndex := i }
          :: rawPredictionsFrom classes (i + 1) rest from rfl,
      List.map_cons, List.map_cons, ih (i + 1)]

/-- Insertion adds exactly the inserted confidence to the sum. -/
theorem sum_conf_insertByConf {α : Type} [LinearOrderedField α] (p : Prediction α) :
    ∀ l : List (Prediction α),
    ((insertByConf p l).map (fun q => q.confidence)).sum
      = p.confidence + (l.map (fun q => q.confidence)).sum := by
  intro l
  induction l with
  | nil => simp [insertByConf]
  | cons q qs ih =>
    unfold insertByConf
    split
    · rw [List.map_cons, List.sum_cons, ih, List.map_cons, List.sum_cons]
      ring
    · rw [List.map_cons, List.sum_cons]

/-- Sorting preserves the sum of confidences. -/
theorem sum_conf_sortByConfDesc {α : Type} [LinearOrderedField α] :
    ∀ l : List (Prediction α),
    ((sortByConfDesc l).map (fun q => q.confidence)).sum
      = (l.map (fun q => q.confidence)).sum := by
  intro l
  induction l with
  | nil => rfl
  | cons p ps ih =>
    unfold sortByConfDesc
    rw [sum_conf_insertByConf, ih, List.map_cons, List.sum_cons]

/-- Insertion grows the length by one. -/
theorem length_insertByConf {α : Type} [LinearOrderedField α] (p : Prediction α) :
    ∀ l : List (Prediction α), (insertByConf p l).length = l.length + 1 := by
  intro l
  induction l with
  | nil => rfl
  | cons q qs ih =>
    unfold insertByConf
    split
    · simp [ih]
    · rfl

/-- Sorting preserves the length. -/
theorem length_sortByConfDesc {α : Type} [LinearOrderedField α] :
    ∀ l : List (Prediction α), (sortByConfDesc l).length = l.length := by
  intro l
  induction l with
  | nil => rfl
  | cons p ps ih =>
    unfold sortByConfDesc
    rw [length_insertByConf, ih, List.length_cons]

/-- One prediction per probability. -/
theorem length_rawPredictionsFrom {α : Type} [LinearOrderedField α]
    (classes : List TrainingClassData) :
    ∀ (probs : List α) (i : Nat),
    (rawPredictionsFrom classes i probs).length = probs.length := by
  intro probs
  induction probs with
  | nil => intro i; rfl
  | cons c rest ih =>
    intro i
    rw [show rawPredictionsFrom classes i (c :: rest)
        = { className := classNameAt classes i, confidence := c * 100, classIndex := i }
          :: rawPredictionsFrom classes (i + 1) rest from rfl,
      List.length_cons, ih (i + 1), List.length_cons]

/-- Scaling every element by 100 scales the sum by 100. -/
theorem sum_map_mul_hundred {α : Type} [LinearOrderedField α] :
    ∀ l : List α, (l.map (fun c => c * 100)).sum = l.sum * 100 := by
  intro l
  induction l with
  | nil => simp
  | cons a t ih => simp [ih, add_mul]

/-- The exponentials of a non-empty list have positive sum. -/
theorem sum_exp_pos (z : List ℝ) (hz : z ≠ []) : 0 < (z.map Real.exp).sum := by
  cases z with
  | nil => exact absurd rfl hz
  | cons a t =>
    rw [List.map_cons, List.sum_cons]
    have h1 : (0 : ℝ) ≤ (t.map Real.exp).sum := by
      apply List.sum_nonneg
      intro x hx
      obtain ⟨y, _, hy⟩ := List.mem_map.mp hx
      rw [← hy]
      exact le_of_lt (Real.exp_pos y)
    exact add_pos_of_pos_of_nonneg (Real.exp_pos a) h1

/-- Softmax is a probability distribution: its outputs sum to 1. -/
theorem sum_softmax (z : List ℝ) (hz : z ≠ []) : (softmax z).sum = 1 := by
  have hS : (z.map Real.exp).sum ≠ 0 := ne_of_gt (sum_exp_pos z hz)
  unfold softmax
  rw [show (z.map fun zi => Real.exp zi / (z.map Real.exp).sum)
      = z.map fun zi => Real.exp zi * ((z.map Real.exp).sum)⁻¹ from by
        simp [div_eq_mul_inv]]
  rw [List.sum_map_mul_right]
  exact mul_inv_cancel₀ hS

/-- Softmax keeps the number of entries. -/
theorem softmax_length (z : List ℝ) : (softmax z).length = z.length := by
  simp [softmax]

/-- C7.  For a ready model whose head ends in softmax, the returned
ranked list has one entry per known class and its confidence
percentages sum to exactly 100 (so within any tolerance, in particular
100 ± 0.5). -/
theorem C7_confidence_sum (model : MLModel) (classes : List TrainingClassData) (z : List ℝ)
    (hm : model.model ≠ none) (hr : model.isReady = true) (hz : z ≠ [])
    (hlen : classes.length = z.length) :
    ∃ preds, makePrediction model classes (softmax z) = Except.ok preds ∧
      preds.length = classes.length ∧
      |(preds.map (fun p => p.confidence)).sum - 100| ≤ 1 / 2 := by
  refine ⟨sortByConfDesc (rawPredictions classes (softmax z)), ?_, ?_, ?_⟩
  · unfold makePrediction
    rw [if_neg (by push_neg; exact ⟨hm, by rw [hr]; exact fun hcontra => by cases hcontra⟩)]
  · rw [length_sortByConfDesc]
    unfold rawPredictions
    rw [length_rawPredictionsFrom, softmax_length, hlen]
  · rw [sum_conf_sortByConfDesc]
    unfold rawPredictions
    rw [map_confidence_rawPredictionsFrom, sum_map_mul_hundred, sum_softmax z hz]
    norm_num

/-- C7, witness: a one-class model at logit 0. -/
theorem C7_confidence_sum_witness :
    ∃ preds, makePrediction readyState.model [clsA] (softmax [(0 : ℝ)]) = Except.ok preds ∧
      preds.length = ([clsA] : List TrainingClassData).length ∧
      |(preds.map (fun p => p.confidence)).sum - 100| ≤ 1 / 2 :=
  C7_confidence_sum readyState.model [clsA] [(0 : ℝ)] (by decide) rfl
    (List.cons_ne_nil 0 []) rfl

/-! Lemmas for the preprocessing pipeline. -/

/-- A linear interpolation of two values in [0, 255] with weight in
[0, 1] stays in [0, 255]. -/
theorem lerp_mem (a b t : ℚ) (ha : 0 ≤ a ∧ a ≤ 255) (hb : 0 ≤ b ∧ b ≤ 255)
    (ht : 0 ≤ t ∧ t ≤ 1) : 0 ≤ lerp a b t ∧ lerp a b t ≤ 255 := by
  unfold lerp
  constructor
  · nlinarith [ha.1, ha.2, hb.1, hb.2, ht.1, ht.2]
  · nlinarith [ha.1, ha.2, hb.1, hb.2, ht.1, ht.2]

/-- The fractional part used by the resize kernel lies in [0, 1]. -/
theorem fracPart_mem (q : ℚ) (hq : 0 ≤ q) :
    0 ≤ q - ((Int.floor q).toNat : ℚ) ∧ q - ((Int.floor q).toNat : ℚ) ≤ 1 := by
  have h0 : ((Int.floor q).toNat : ℤ) = Int.floor q :=
    Int.toNat_of_nonneg (Int.floor_nonneg.mpr hq)
  have hcast : ((Int.floor q).toNat : ℚ) = ((Int.floor q : ℤ) : ℚ) := by
    exact_mod_cast congrArg (fun z : ℤ => (z : ℚ)) h0
  constructor
  · have h1 := Int.floor_le q
    rw [hcast]
    linarith
  · have h2 := Int.lt_floor_add_one q
    rw [hcast]
    linarith

/-- Every output value of the bilinear resize of a [0, 255]-valued
buffer lies in [0, 255] (each output is a convex combination of four
input pixels). -/
theorem resizeBilinearAt_mem (img : PixelBuffer)
    (hpix : ∀ y x c, 0 ≤ img.pixel y x c ∧ img.pixel y x c ≤ 255)
    (outH outW y x c : Nat) :
    0 ≤ resizeBilinearAt img outH outW y x c ∧
    resizeBilinearAt img outH outW y x c ≤ 255 := by
  have hY0 : (0 : ℚ) ≤ (y : ℚ) * ((img.height : ℚ) / (outH : ℚ)) :=
    mul_nonneg (Nat.cast_nonneg y) (div_nonneg (Nat.cast_nonneg _) (Nat.cast_nonneg _))
  have hX0 : (0 : ℚ) ≤ (x : ℚ) * ((img.width : ℚ) / (outW : ℚ)) :=
    mul_nonneg (Nat.cast_nonneg x) (div_nonneg (Nat.cast_nonneg _) (Nat.cast_nonneg _))
  simp only [resizeBilinearAt]
  exact lerp_mem _ _ _
    (lerp_mem _ _ _ (hpix _ _ _) (hpix _ _ _) (fracPart_mem _ hX0))
    (lerp_mem _ _ _ (hpix _ _ _) (hpix _ _ _) (fracPart_mem _ hX0))
    (fracPart_mem _ hY0)

/-- C8.  For every pixel buffer with channel values in [0, 255], the
preprocessor output is a batched tensor of fixed shape 1×224×224×3 and
every value lies in [0, 1] (the resize is a convex combination of
inputs, then divided by 255); the embedding is a pure function of the
buffer. -/
theorem C8_preprocess_shape_range (img : PixelBuffer)
    (hpix : ∀ y x c, 0 ≤ img.pixel y x c ∧ img.pixel y x c ≤ 255)
    (b y x c : Nat) :
    (preprocessImage img).batch = 1 ∧
    (preprocessImage img).height = 224 ∧
    (preprocessImage img).width = 224 ∧
    (preprocessImage img).channels = 3 ∧
    0 ≤ (preprocessImage img).val b y x c ∧
    (preprocessImage img).val b y x c ≤ 1 := by
  have h := resizeBilinearAt_mem img hpix 224 224 y x c
  refine ⟨rfl, rfl, rfl, rfl, ?_, ?_⟩
  · show 0 ≤ resizeBilinearAt img 224 224 y x c / 255
    exact div_nonneg h.1 (by norm_num)
  · show resizeBilinearAt img 224 224 y x c / 255 ≤ 1
    rw [div_le_one (by norm_num)]
    exact h.2

/-- C8, witness: a 1×1 buffer with all channels at 100. -/
theorem C8_preprocess_shape_range_witness :
    (preprocessImage img100).batch = 1 ∧
    (preprocessImage img100).height = 224 ∧
    (preprocessImage img100).width = 224 ∧
    (preprocessImage img100).channels = 3 ∧
    0 ≤ (preprocessImage img100).val 0 0 0 0 ∧
    (preprocessImage img100).val 0 0 0 0 ≤ 1 :=
  C8_preprocess_shape_range img100
    (fun _ _ _ => ⟨(by decide : (0 : ℚ) ≤ 100), (by decide : (100 : ℚ) ≤ 255)⟩) 0 0 0 0

end TM
